import Mathlib

/-!
Shallow embedding of the `lywd03mmc` client (LYWSD03MMC temperature/humidity
sensor client).  Times are modelled as integers: epoch seconds for the device
clock payloads, and epoch microseconds for `datetime` values handled by the
history reconstruction (Python `datetime` is microsecond-precision).
Byte strings are `List Nat` with every element `< 256`.
-/

namespace Lywsd03

/-! ## Byte packing (Python `struct`)

`struct.pack('I', v)` / `struct.pack('Ib', ts, off)` on a little-endian host:
an unsigned 32-bit little-endian integer, optionally followed by one signed
byte.  Out-of-range values raise `struct.error`, modelled as `none`. -/

/-- Little-endian 4-byte encoding of a natural number `< 2^32`. -/
def u32le (n : Nat) : List Nat :=
  [n % 256, n / 256 % 256, n / 256 ^ 2 % 256, n / 256 ^ 3 % 256]

/-- Two's-complement single byte for a signed value in `[-128, 127]`. -/
def sbyte (off : Int) : Nat :=
  (off % 256).toNat

/-- Decode 4 little-endian bytes. -/
def readU32 (b0 b1 b2 b3 : Nat) : Nat :=
  b0 + 256 * b1 + 256 ^ 2 * b2 + 256 ^ 3 * b3

/-- Decode one signed byte (two's complement). -/
def readSbyte (b : Nat) : Int :=
  if b < 128 then (b : Int) else (b : Int) - 256

/-- `struct.pack('I', v)`: fails (raises `struct.error`) unless `0 ≤ v < 2^32`. -/
def packU32 (v : Int) : Option (List Nat) :=
  if 0 ≤ v ∧ v < 2 ^ 32 then some (u32le v.toNat) else none

/-- `struct.pack('Ib', ts, off)`: 4-byte little-endian epoch seconds followed by
one signed byte; fails unless both values are in range. -/
def packIb (ts off : Int) : Option (List Nat) :=
  if 0 ≤ ts ∧ ts < 2 ^ 32 ∧ -128 ≤ off ∧ off ≤ 127 then
    some (u32le ts.toNat ++ [sbyte off])
  else none

/-- The clock characteristic payload as parsed by the `time` getter:
5 bytes are `struct.unpack('Ib', value)`, 4 bytes are `struct.unpack('I', value)`
with the timezone offset taken as 0; any other length raises `struct.error`. -/
def parseTimePayload (v : List Nat) : Option (Int × Int) :=
  match v with
  | [b0, b1, b2, b3, b4] => some ((readU32 b0 b1 b2 b3 : Int), readSbyte b4)
  | [b0, b1, b2, b3] => some ((readU32 b0 b1 b2 b3 : Int), 0)
  | _ => none

/-! ## Client state relevant to the clock (`Lywsd03Client`)

`__init__` sets `self._device_time = datetime.now()` and `self._tz_offset = None`
(the `tz_offset` getter then falls back to the host offset, modelled here as the
resolved effective offset).  `clockChar` is the byte string currently stored at
`UUID_TIME` on the device. -/

structure ClientState where
  deviceTime : Int
  tzOffset : Int
  clockChar : List Nat
  deriving Repr, DecidableEq

/-- The `time` setter: `struct.pack('Ib', int(dt.timestamp()), self.tz_offset)`
is written to the clock characteristic.  The cached `self._device_time` is not
touched by the setter. -/
def writeTime (s : ClientState) (ts : Int) : Option ClientState :=
  match packIb ts s.tzOffset with
  | none => none
  | some data => some { s with clockChar := data }

/-- The `time` getter: `self._device_time if self._device_time else fn()`.
`_device_time` is initialised to `datetime.now()` in `__init__` and `datetime`
objects are always truthy, so the getter returns the cached value and the
read-and-parse branch `fn()` is unreachable. -/
def timeGet (s : ClientState) : Int :=
  s.deviceTime

/-! ## History collection (`History` dataclass over an `OrderedDict`)

`History.add` is `self.records[key] = record`: assigning to an existing key of
an `OrderedDict` overwrites the value in place (the key keeps its position);
assigning a fresh key appends it.  Keys are timestamps, modelled as `Int`
epoch microseconds. -/

structure HistoryRecord where
  time : Int
  temp_min : ℚ
  temp_max : ℚ
  hum_min : Nat
  hum_max : Nat
  deriving Repr, DecidableEq

abbrev History := List (Int × HistoryRecord)

def History.add (h : History) (key : Int) (record : HistoryRecord) : History :=
  match h with
  | [] => [(key, record)]
  | (k, v) :: rest =>
      if k = key then (key, record) :: rest
      else (k, v) :: History.add rest key record

def History.keys (h : History) : List Int :=
  h.map Prod.fst

def History.lookup (h : History) (key : Int) : Option HistoryRecord :=
  match h with
  | [] => none
  | (k, v) :: rest => if k = key then some v else History.lookup rest key

/-! ## Record reconstruction (`_process_history_data`)

`ts = self.time - timedelta(hours=self.stored_entries[0] - idx,
minutes=self.time.minute, seconds=self.time.second,
microseconds=self.time.microsecond)` where `self.time` is the cached device
time `T` in microseconds.  The `datetime` components of an epoch-microsecond
value `T` are `T % 10^6` microseconds, `(T / 10^6) % 60` seconds and
`(T / (60 * 10^6)) % 60` minutes. -/

def usPerSec : Int := 1000000

def usPerMin : Int := 60 * usPerSec

def usPerHour : Int := 60 * usPerMin

def microOf (t : Int) : Int := t % usPerSec

def secondOf (t : Int) : Int := t / usPerSec % 60

def minuteOf (t : Int) : Int := t / usPerMin % 60

/-- Timestamp reconstructed for the record at index `idx` when the cached
device time is `T` and `stored_entries[0] = total`. -/
def reconstructTs (T : Int) (total idx : Nat) : Int :=
  T - ((total : Int) - (idx : Int)) * usPerHour
    - minuteOf T * usPerMin - secondOf T * usPerSec - microOf T

/-- Fields of one history notification after
`struct.unpack_from('<IIhBhB', data)`: record index, then the parsed
max-temperature (signed, tenths of °C), max-humidity, min-temperature,
min-humidity.  The second unsigned 32-bit field is unused by the code. -/
structure Notif where
  idx : Nat
  maxTempRaw : Int
  maxHum : Nat
  minTempRaw : Int
  minHum : Nat
  deriving Repr, DecidableEq

/-- The `HistoryRecord` built by `_process_history_data`: temperatures are
divided by 10 (`min_temp /= 10`, `max_temp /= 10`, Python true division),
humidity fields are stored unchanged. -/
def recordOf (T : Int) (total : Nat) (n : Notif) : HistoryRecord :=
  { time := reconstructTs T total n.idx
    temp_min := (n.minTempRaw : ℚ) / 10
    temp_max := (n.maxTempRaw : ℚ) / 10
    hum_min := n.minHum
    hum_max := n.maxHum }

/-! ## The harvesting loop (`history_data` / `_process_history_data`) -/

/-- In-progress harvest state: `self._latest_record` (initially `False`, hence
`Option`) and the accumulating `self._history_data`. -/
structure HarvestState where
  latest : Option Int
  history : History
  deriving Repr, DecidableEq

/-- One notification callback: sets `self._latest_record = ts` and then
`self._history_data.add(ts, HistoryRecord(ts, ...))`. -/
def processHistoryData (T : Int) (total : Nat) (s : HarvestState) (n : Notif) :
    HarvestState :=
  let ts := reconstructTs T total n.idx
  { latest := some ts, history := s.history.add ts (recordOf T total n) }

/-- The polling loop's exit test.  The loop is
`while not self._latest_record or self._latest_record <= end_date`, so it
exits exactly when `_latest_record` is set and strictly greater than
`end_date`. -/
def harvestExit (latest : Option Int) (endDate : Int) : Bool :=
  match latest with
  | none => false
  | some t => decide (endDate < t)

/-- Sequential model of the harvest: notifications are delivered one by one
(each callback runs to completion before the polling loop can observe the
state), and after each one the loop's exit condition is checked with
`end_date = self._device_time - timedelta(hours=1)`.  Returns the final state
and whether the loop exited within the delivered stream; `false` means the
polling loop is still blocked when the stream ends. -/
def harvestRun (T : Int) (total : Nat) (s : HarvestState) :
    List Notif → HarvestState × Bool
  | [] => (s, false)
  | n :: ns =>
      let s' := processHistoryData T total s n
      if harvestExit s'.latest (T - usPerHour) then (s', true)
      else harvestRun T total s' ns

/-- Outcome of the `history_data` property: `start_notify` is called
unconditionally before the polling loop, so `subscribed` is always `true`;
`terminated` records whether the polling loop's exit condition was ever met. -/
structure HistoryDataResult where
  subscribed : Bool
  terminated : Bool
  result : History
  deriving Repr, DecidableEq

/-- `history_data`: subscribe, poll until the exit condition holds, return
`self._history_data`.  `stored` is the cached `stored_entries` pair
`(total records, unsynced records)`; only `stored.1` is ever consulted. -/
def historyData (T : Int) (stored : Nat × Nat) (notifs : List Notif) :
    HistoryDataResult :=
  let (s, fin) := harvestRun T stored.1 { latest := none, history := [] } notifs
  { subscribed := true, terminated := fin, result := s.history }

/-! ## Time ranges and the history index cursor (`history` / `history_index`) -/

inductive TimeRange where
  | DAY
  | WEEK
  | MONTH
  deriving Repr, DecidableEq

/-- Enum values from the source: `DAY = 24`, `WEEK = 27 * 7`, `MONTH = 31 * 24`. -/
def TimeRange.val : TimeRange → Int
  | .DAY => 24
  | .WEEK => 27 * 7
  | .MONTH => 31 * 24

/-- `history` computes `self.stored_entries[0] - time_range.value` with no
clamping (Python integer subtraction may go negative). -/
def historyStartIndex (total : Int) (r : TimeRange) : Int :=
  total - r.val

/-- The `history_index` setter packs the value with `struct.pack('I', value)`
and writes it; a negative value makes `struct.pack` raise (`none`). -/
def writeHistoryIndex (total : Int) (r : TimeRange) : Option (List Nat) :=
  packU32 (historyStartIndex total r)

/-- Modelled from the spec's words, for comparison only: the claimed start
index "clamped to be at least 0". -/
def specClampedStartIndex (total : Int) (r : TimeRange) : Int :=
  max 0 (total - r.val)

/-! ## Live readings (`_process_sensor_data`)

`temperature, humidity, voltage = struct.unpack_from('<hBh', data)`, then
`temperature /= 100`, `voltage /= 1000` and
`battery = min(int(round((voltage - 2.1), 2) * 100), 100)`.
Python's `round` rounds half to even; `int` truncates toward zero.  The
exact values are modelled in `ℚ`. -/

/-- Python `round(q)`: nearest integer, ties to even. -/
def roundHE (q : ℚ) : Int :=
  let f := ⌊q⌋
  let r := q - (f : ℚ)
  if r < 1 / 2 then f
  else if 1 / 2 < r then f + 1
  else if f % 2 = 0 then f else f + 1

/-- Python `round(q, 2)`: round to two decimal places. -/
def round2 (q : ℚ) : ℚ :=
  (roundHE (q * 100) : ℚ) / 100

/-- Python `int(q)`: truncation toward zero. -/
def intTrunc (q : ℚ) : Int :=
  if 0 ≤ q then ⌊q⌋ else -⌊-q⌋

/-- The battery estimate computed from the raw voltage field (millivolts):
`min(int(round((voltage - 2.1), 2) * 100), 100)` with `voltage = raw / 1000`. -/
def processBattery (rawVoltage : Int) : Int :=
  let voltage : ℚ := (rawVoltage : ℚ) / 1000
  min (intTrunc (round2 (voltage - 21 / 10) * 100)) 100

structure SensorData where
  temperature : ℚ
  humidity : Nat
  battery : Int
  deriving Repr, DecidableEq

/-- `_process_sensor_data` on the parsed `'<hBh'` fields. -/
def processSensorData (rawTemp : Int) (humidity : Nat) (rawVoltage : Int) :
    SensorData :=
  { temperature := (rawTemp : ℚ) / 100
    humidity := humidity
    battery := processBattery rawVoltage }

/-- Modelled from the spec's words, for comparison only:
`clamp(round((voltage - 2.1) * 100), 0, 100)`. -/
def specBatteryClamped (rawVoltage : Int) : Int :=
  max 0 (min (roundHE (((rawVoltage : ℚ) / 1000 - 21 / 10) * 100)) 100)

/-! ## Connection retry (`connect`)

```
retry = 1
while not self._connected and retry <= self._connection_retry:
    try:
        ...
        self._connected = await self._client.connect()
        return True
    except Exception:
        retry += 1
return False
```

Attempt number `retry` is modelled by an oracle `outcome : Nat → Option Bool`:
`none` means the attempt raised (the exception is swallowed and `retry`
incremented), `some b` means `await self._client.connect()` returned `b`, after
which the function returns `True` unconditionally.  The loop admits at most
`bound + 1 - retry` further iterations, carried as fuel.  The result triple is
(value returned by `_connect`, final `retry`, final `self._connected`). -/

def connectLoop (outcome : Nat → Option Bool) :
    Nat → Nat → Bool × Nat × Bool
  | 0, retry => (false, retry, false)
  | fuel + 1, retry =>
      match outcome retry with
      | some b => (true, retry, b)
      | none => connectLoop outcome fuel (retry + 1)

/-- `_connect()` as invoked by `connect()`: `retry` starts at 1 and the loop
runs while `retry <= self._connection_retry` (so at most `bound` attempts). -/
def connectFn (bound : Nat) (outcome : Nat → Option Bool) :
    Bool × Nat × Bool :=
  connectLoop outcome bound 1

/-- `connect()` raises `DeviceNotFound` exactly when `_connect()` returns a
falsy value. -/
def connectRaisesDeviceNotFound (bound : Nat) (outcome : Nat → Option Bool) :
    Bool :=
  !(connectFn bound outcome).1

/-- Folding a sequence of insertions into a history. -/
def insertAll (h : History) (l : List (Int × HistoryRecord)) : History :=
  l.foldl (fun acc p => acc.add p.1 p.2) h

/-! ## Lemmas about `History.add` -/

theorem History.keys_add (h : History) (k : Int) (v : HistoryRecord) :
    (h.add k v).keys = if k ∈ h.keys then h.keys else h.keys ++ [k] := by
  induction h with
  | nil => simp [History.add, History.keys]
  | cons p rest ih =>
      obtain ⟨k', v'⟩ := p
      by_cases hk : k' = k
      · subst hk
        simp [History.add, History.keys]
      · have hne : ¬k = k' := fun hcontra => hk hcontra.symm
        simp only [History.add, hk, if_false, History.keys, List.map_cons,
          List.mem_cons, hne, false_or]
        by_cases hmem : k ∈ History.keys rest
        · simp only [History.keys] at hmem
          simp [hmem, History.keys] at ih ⊢
          exact ih
        · simp only [History.keys] at hmem
          simp [hmem, History.keys] at ih ⊢
          exact ih

theorem History.length_keys (h : History) : h.keys.length = h.length :=
  List.length_map _ _

theorem History.length_add (h : History) (k : Int) (v : HistoryRecord) :
    (h.add k v).length = if k ∈ h.keys then h.length else h.length + 1 := by
  have := History.keys_add h k v
  by_cases hmem : k ∈ h.keys
  · simp only [hmem, if_true] at this ⊢
    rw [← History.length_keys, this, History.length_keys]
  · simp only [hmem, if_false] at this ⊢
    rw [← History.length_keys, this, List.length_append, History.length_keys]
    rfl

theorem History.lookup_add (h : History) (q key : Int) (v : HistoryRecord) :
    (h.add key v).lookup q = if q = key then some v else h.lookup q := by
  induction h with
  | nil =>
      simp only [History.add, History.lookup]
      split_ifs with h1 h2 h2 <;> first | rfl | omega
  | cons p rest ih =>
      obtain ⟨k', v'⟩ := p
      by_cases hk : k' = key
      · subst hk
        simp only [History.add, if_true, History.lookup]
        split_ifs with h1 h2 h2 <;> first | rfl | omega
      · simp only [History.add, hk, if_false, History.lookup, ih]
        split_ifs with h1 h2 h2 <;> first | rfl | omega

theorem History.lookup_add_self (h : History) (key : Int) (v : HistoryRecord) :
    (h.add key v).lookup key = some v := by
  rw [History.lookup_add]
  simp

theorem History.keys_add_nodup (h : History) (k : Int) (v : HistoryRecord)
    (hn : h.keys.Nodup) : (h.add k v).keys.Nodup := by
  rw [History.keys_add]
  by_cases hmem : k ∈ h.keys
  · simpa [hmem] using hn
  · simp only [hmem, if_false]
    rw [List.nodup_append]
    exact ⟨hn, List.nodup_singleton k, by simpa using hmem⟩

theorem History.mem_keys_add (h : History) (k x : Int) (v : HistoryRecord)
    (hx : x ∈ (h.add k v).keys) : x ∈ h.keys ∨ x = k := by
  rw [History.keys_add] at hx
  by_cases hmem : k ∈ h.keys
  · simp only [hmem, if_true] at hx
    exact Or.inl hx
  · simp only [hmem, if_false, List.mem_append, List.mem_singleton] at hx
    exact hx

theorem insertAll_keys_nodup (l : List (Int × HistoryRecord)) :
    ∀ h : History, h.keys.Nodup → (insertAll h l).keys.Nodup := by
  induction l with
  | nil => intro h hn; exact hn
  | cons p rest ih =>
      intro h hn
      exact ih (h.add p.1 p.2) (History.keys_add_nodup h p.1 p.2 hn)

theorem insertAll_keys_subset (l : List (Int × HistoryRecord)) :
    ∀ (h : History) (x : Int), x ∈ (insertAll h l).keys →
      x ∈ h.keys ∨ x ∈ l.map Prod.fst := by
  induction l with
  | nil => intro h x hx; exact Or.inl hx
  | cons p rest ih =>
      intro h x hx
      rcases ih (h.add p.1 p.2) x hx with hmem | hmem
      · rcases History.mem_keys_add h p.1 x p.2 hmem with hmem' | hmem'
        · exact Or.inl hmem'
        · exact Or.inr (by simp [hmem'])
      · exact Or.inr (by simp [hmem])

theorem insertAll_length_le (l : List (Int × HistoryRecord)) :
    (insertAll [] l).length ≤ (l.map Prod.fst).dedup.length := by
  have hnodup : (insertAll [] l).keys.Nodup :=
    insertAll_keys_nodup l [] (by simp [History.keys])
  have hsub : (insertAll [] l).keys ⊆ (l.map Prod.fst).dedup := by
    intro x hx
    rcases insertAll_keys_subset l [] x hx with hmem | hmem
    · simp [History.keys] at hmem
    · exact List.mem_dedup.mpr hmem
  have := (List.subperm_of_subset hnodup hsub).length_le
  rw [History.length_keys] at this
  exact this

/-! ## Lemmas about the harvest loop -/

theorem harvestExit_iff (latest : Option Int) (endDate : Int) :
    harvestExit latest endDate = true ↔ ∃ t, latest = some t ∧ endDate < t := by
  cases latest with
  | none => simp [harvestExit]
  | some t => simp [harvestExit]

theorem harvestRun_exits_iff (T : Int) (total : Nat) (notifs : List Notif) :
    ∀ s : HarvestState, (harvestRun T total s notifs).2 = true ↔
      ∃ n ∈ notifs, T - usPerHour < reconstructTs T total n.idx := by
  induction notifs with
  | nil => intro s; simp [harvestRun]
  | cons n ns ih =>
      intro s
      simp only [harvestRun, processHistoryData]
      by_cases hexit : T - usPerHour < reconstructTs T total n.idx
      · simp [harvestExit, hexit]
      · simp only [harvestExit, decide_eq_true_eq, hexit, if_false, ih,
          List.mem_cons]
        constructor
        · rintro ⟨m, hm, hlt⟩
          exact ⟨m, Or.inr hm, hlt⟩
        · rintro ⟨m, hm | hm, hlt⟩
          · exact absurd (hm ▸ hlt) hexit
          · exact ⟨m, hm, hlt⟩

theorem harvestRun_trigger_in_history (T : Int) (total : Nat)
    (notifs : List Notif) :
    ∀ s : HarvestState, (harvestRun T total s notifs).2 = true →
      ∃ t, T - usPerHour < t ∧
        (((harvestRun T total s notifs).1.history.lookup t)).isSome := by
  induction notifs with
  | nil => intro s h; simp [harvestRun] at h
  | cons n ns ih =>
      intro s h
      simp only [harvestRun, processHistoryData] at h ⊢
      by_cases hexit : T - usPerHour < reconstructTs T total n.idx
      · refine ⟨reconstructTs T total n.idx, hexit, ?_⟩
        simp [harvestExit, hexit, History.lookup_add_self]
      · simp only [harvestExit, decide_eq_true_eq, hexit, if_false] at h ⊢
        exact ih _ h

theorem harvestRun_preserves_records (T : Int) (total : Nat)
    (notifs : List Notif) :
    ∀ (s : HarvestState) (k : Int), ((s.history.lookup k)).isSome →
      (((harvestRun T total s notifs).1.history.lookup k)).isSome := by
  induction notifs with
  | nil => intro s k hk; exact hk
  | cons n ns ih =>
      intro s k hk
      have hk' : (((processHistoryData T total s n).history.lookup k)).isSome := by
        simp only [processHistoryData, History.lookup_add]
        split_ifs with h
        · simp
        · exact hk
      simp only [harvestRun]
      split_ifs with h
      · exact hk'
      · exact ih _ k hk'

/-! ## Lemmas about timestamp reconstruction -/

theorem reconstructTs_whole_hour (T : Int) (total idx : Nat) :
    usPerHour ∣ reconstructTs T total idx := by
  have : reconstructTs T total idx % usPerHour = 0 := by
    simp only [reconstructTs, minuteOf, secondOf, microOf, usPerHour, usPerMin,
      usPerSec]
    omega
  exact Int.dvd_of_emod_eq_zero this

theorem reconstructTs_mono (T : Int) (total : Nat) {i j : Nat} (hij : i ≤ j) :
    reconstructTs T total i ≤ reconstructTs T total j := by
  simp only [reconstructTs, usPerHour, usPerMin, usPerSec]
  have : (i : Int) ≤ (j : Int) := Int.ofNat_le.mpr hij
  nlinarith

/-! ## Lemmas about the connect loop -/

theorem connectLoop_all_raise (outcome : Nat → Option Bool)
    (hall : ∀ i, outcome i = none) :
    ∀ fuel retry, connectLoop outcome fuel retry = (false, retry + fuel, false) := by
  intro fuel
  induction fuel with
  | zero => intro retry; simp [connectLoop]
  | succ f ih =>
      intro retry
      simp only [connectLoop, hall retry]
      rw [ih (retry + 1)]
      have h : retry + 1 + f = retry + (f + 1) := by omega
      rw [h]

theorem connectLoop_retry_le (outcome : Nat → Option Bool) :
    ∀ fuel retry, (connectLoop outcome fuel retry).2.1 ≤ retry + fuel := by
  intro fuel
  induction fuel with
  | zero => intro retry; simp [connectLoop]
  | succ f ih =>
      intro retry
      simp only [connectLoop]
      cases houtcome : outcome retry with
      | some b => exact Nat.le_add_right retry (f + 1)
      | none =>
          have := ih (retry + 1)
          exact le_trans this (by omega)

theorem connectLoop_first_success (outcome : Nat → Option Bool) :
    ∀ (fuel retry k : Nat) (b : Bool), retry ≤ k → k < retry + fuel →
      (∀ i, retry ≤ i → i < k → outcome i = none) → outcome k = some b →
      connectLoop outcome fuel retry = (true, k, b) := by
  intro fuel
  induction fuel with
  | zero => intro retry k b h1 h2 _ _; omega
  | succ f ih =>
      intro retry k b h1 h2 hnone hk
      by_cases hrk : retry = k
      · subst hrk
        simp [connectLoop, hk]
      · have hfirst : outcome retry = none := hnone retry le_rfl (by omega)
        simp only [connectLoop, hfirst]
        exact ih (retry + 1) k b (by omega) (by omega)
          (fun i hi1 hi2 => hnone i (by omega) hi2) hk

theorem connectLoop_immediate (outcome : Nat → Option Bool) (fuel retry : Nat)
    (b : Bool) (hk : outcome retry = some b) :
    connectLoop outcome (fuel + 1) retry = (true, retry, b) := by
  simp [connectLoop, hk]

/-! ## Lemmas about clock payload packing -/

theorem readU32_u32le (n : Nat) (hn : n < 2 ^ 32) :
    readU32 (n % 256) (n / 256 % 256) (n / 256 ^ 2 % 256) (n / 256 ^ 3 % 256)
      = n := by
  simp only [readU32]
  omega

theorem readSbyte_sbyte (off : Int) (h1 : -128 ≤ off) (h2 : off ≤ 127) :
    readSbyte (sbyte off) = off := by
  simp only [readSbyte, sbyte]
  split_ifs with h <;> omega

theorem parse_pack_roundtrip (ts off : Int) (h1 : 0 ≤ ts) (h2 : ts < 2 ^ 32)
    (h3 : -128 ≤ off) (h4 : off ≤ 127) :
    parseTimePayload (u32le ts.toNat ++ [sbyte off]) = some (ts, off) := by
  simp only [u32le, List.cons_append, List.nil_append, parseTimePayload]
  rw [readU32_u32le ts.toNat (by omega), readSbyte_sbyte off h3 h4]
  simp [Int.toNat_of_nonneg h1]

theorem packIb_eq (ts off : Int) (h1 : 0 ≤ ts) (h2 : ts < 2 ^ 32)
    (h3 : -128 ≤ off) (h4 : off ≤ 127) :
    packIb ts off = some (u32le ts.toNat ++ [sbyte off]) := by
  simp only [packIb]
  rw [if_pos ⟨h1, h2, h3, h4⟩]

/-! ## Claim theorems -/

/-- Claim C1, counterexample.  The claim states that the polling loop
finalizes once `latest_seen` is set and `latest_seen ≤ end_threshold`.  With
device time `T = 0` and one stored record (index 0), the reconstructed
timestamp is `-usPerHour ≤ T - usPerHour`, yet the loop does not exit: the
source loops `while not self._latest_record or self._latest_record <=
end_date`, terminating only on a timestamp strictly greater than the
threshold. -/
theorem C1_counterexample :
    reconstructTs 0 1 0 ≤ 0 - usPerHour
  ∧ (harvestRun 0 1 { latest := none, history := [] }
      [{ idx := 0, maxTempRaw := 250, maxHum := 60, minTempRaw := 200,
         minHum := 40 }]).2 = false
  ∧ harvestExit (some (0 - usPerHour)) (0 - usPerHour) = false := by
  refine ⟨by decide, by decide, by decide⟩

/-- Claim C1 (amended): the harvester terminates exactly when a reconstructed
record timestamp strictly greater than `device_time - 1h` has been observed
(the loop exits once `latest_seen` is set and `latest_seen > end_threshold`),
and the triggering record still appears in the returned History, because the
callback inserts the record before the polling check can observe the updated
`latest_seen`; records already inserted are never removed. -/
theorem C1_harvest_termination (T : Int) (total : Nat) (notifs : List Notif)
    (s : HarvestState) :
    (harvestExit s.latest (T - usPerHour) = true
        ↔ ∃ t, s.latest = some t ∧ T - usPerHour < t)
  ∧ ((harvestRun T total s notifs).2 = true
        ↔ ∃ n ∈ notifs, T - usPerHour < reconstructTs T total n.idx)
  ∧ ((harvestRun T total s notifs).2 = true →
        ∃ t, T - usPerHour < t ∧
          (((harvestRun T total s notifs).1.history.lookup t)).isSome)
  ∧ (∀ k, ((s.history.lookup k)).isSome →
        (((harvestRun T total s notifs).1.history.lookup k)).isSome) :=
  ⟨harvestExit_iff s.latest (T - usPerHour),
   harvestRun_exits_iff T total notifs s,
   harvestRun_trigger_in_history T total notifs s,
   fun k => harvestRun_preserves_records T total notifs s k⟩

/-- Witness for C1: a concrete harvest that terminates (device time 0, zero
stored records, one notification with index 1 reconstructing past the
threshold) has its triggering record in the history. -/
theorem C1_harvest_termination_witness :
    ∃ t, (0 : Int) - usPerHour < t ∧
      (((harvestRun 0 0 { latest := none, history := [] }
          [{ idx := 1, maxTempRaw := 10, maxHum := 60, minTempRaw := 5,
             minHum := 40 }]).1.history.lookup t)).isSome :=
  (C1_harvest_termination 0 0
    [{ idx := 1, maxTempRaw := 10, maxHum := 60, minTempRaw := 5,
       minHum := 40 }] { latest := none, history := [] }).2.2.1 (by decide)

/-- Claim C2 (confirmed): the reconstructed record for index `i` has timestamp
`device_time - (total - i) hours` with the device time's minute, second and
microsecond components subtracted (a whole-hour boundary, witnessed by
divisibility by `usPerHour`), timestamps are monotonically non-decreasing in
the index, raw temperatures are divided by 10 and humidities stored
unchanged. -/
theorem C2_reconstruction (T : Int) (total i j : Nat) (n : Notif)
    (hij : i ≤ j) (_hjt : j < total) :
    reconstructTs T total n.idx
        = T - ((total : Int) - (n.idx : Int)) * usPerHour
          - minuteOf T * usPerMin - secondOf T * usPerSec - microOf T
  ∧ usPerHour ∣ reconstructTs T total i
  ∧ reconstructTs T total i ≤ reconstructTs T total j
  ∧ (recordOf T total n).time = reconstructTs T total n.idx
  ∧ (recordOf T total n).temp_min = (n.minTempRaw : ℚ) / 10
  ∧ (recordOf T total n).temp_max = (n.maxTempRaw : ℚ) / 10
  ∧ (recordOf T total n).hum_min = n.minHum
  ∧ (recordOf T total n).hum_max = n.maxHum :=
  ⟨rfl, reconstructTs_whole_hour T total i, reconstructTs_mono T total hij,
   rfl, rfl, rfl, rfl, rfl⟩

/-- A concrete notification used by the C2 witness. -/
def nC2 : Notif :=
  { idx := 0, maxTempRaw := 5, maxHum := 60, minTempRaw := 3, minHum := 40 }

/-- Witness for C2 at device time 7 µs, 2 stored records, indices 0 ≤ 1 < 2. -/
theorem C2_reconstruction_witness :
    reconstructTs 7 2 nC2.idx
        = 7 - ((2 : Int) - (nC2.idx : Int)) * usPerHour
          - minuteOf 7 * usPerMin - secondOf 7 * usPerSec - microOf 7
  ∧ usPerHour ∣ reconstructTs 7 2 0
  ∧ reconstructTs 7 2 0 ≤ reconstructTs 7 2 1
  ∧ (recordOf 7 2 nC2).time = reconstructTs 7 2 nC2.idx
  ∧ (recordOf 7 2 nC2).temp_min = (nC2.minTempRaw : ℚ) / 10
  ∧ (recordOf 7 2 nC2).temp_max = (nC2.maxTempRaw : ℚ) / 10
  ∧ (recordOf 7 2 nC2).hum_min = nC2.minHum
  ∧ (recordOf 7 2 nC2).hum_max = nC2.maxHum :=
  C2_reconstruction 7 2 0 1 nC2 (by decide) (by decide)

/-- Claim C3, counterexample.  The claim states the start index is clamped to
at least 0 when `total_records` is smaller than the range value.  With
`total_records = 0` and `TimeRange.DAY`, the source computes `0 - 24 = -24`
with no clamping, and `struct.pack('I', -24)` raises rather than writing the
clamped index 0. -/
theorem C3_counterexample :
    historyStartIndex 0 TimeRange.DAY = -24
  ∧ specClampedStartIndex 0 TimeRange.DAY = 0
  ∧ historyStartIndex 0 TimeRange.DAY ≠ specClampedStartIndex 0 TimeRange.DAY
  ∧ writeHistoryIndex 0 TimeRange.DAY = none := by
  refine ⟨by decide, by decide, by decide, by decide⟩

/-- Claim C3 (amended): `history(time_range)` writes a start index of
`total_records` minus the range's hours-equivalent value (24 for DAY, 189 for
WEEK, 744 for MONTH) with no clamping: when `total_records` is at least the
range value the index is packed and written, and when it is smaller the
negative index makes `struct.pack('I', ...)` raise instead of writing 0. -/
theorem C3_history_index (total : Int) (r : TimeRange)
    (h0 : 0 ≤ total - r.val) (hlt : total - r.val < 2 ^ 32) :
    historyStartIndex total TimeRange.DAY = total - 24
  ∧ historyStartIndex total TimeRange.WEEK = total - 189
  ∧ historyStartIndex total TimeRange.MONTH = total - 744
  ∧ writeHistoryIndex total r = some (u32le (total - r.val).toNat)
  ∧ (∀ (t : Int) (q : TimeRange), t - q.val < 0 → writeHistoryIndex t q = none) := by
  refine ⟨by norm_num [historyStartIndex, TimeRange.val],
    by norm_num [historyStartIndex, TimeRange.val],
    by norm_num [historyStartIndex, TimeRange.val], ?_, ?_⟩
  · simp only [writeHistoryIndex, packU32, historyStartIndex]
    rw [if_pos ⟨h0, hlt⟩]
  · intro t q hneg
    simp only [writeHistoryIndex, packU32, historyStartIndex]
    rw [if_neg]
    intro hcontra
    omega

/-- Witness for C3: the spec's own scenario, `total_records = 200` and
`TimeRange.DAY`, writes the packed cursor value 176. -/
theorem C3_history_index_witness :
    historyStartIndex 200 TimeRange.DAY = 200 - 24
  ∧ historyStartIndex 200 TimeRange.WEEK = 200 - 189
  ∧ historyStartIndex 200 TimeRange.MONTH = 200 - 744
  ∧ writeHistoryIndex 200 TimeRange.DAY
      = some (u32le ((200 : Int) - TimeRange.val TimeRange.DAY).toNat)
  ∧ (∀ (t : Int) (q : TimeRange), t - q.val < 0 → writeHistoryIndex t q = none) :=
  C3_history_index 200 TimeRange.DAY (by decide) (by decide)

/-- Claim C4, counterexample.  With `stored_entries = (200, 0)` (zero unsynced
records), `history_data` still subscribes to the history notification channel
(`start_notify` is unconditional), contradicting the claimed short-circuit;
moreover with no notifications the polling loop never meets its exit
condition, so no empty History is returned. -/
theorem C4_counterexample :
    (200, 0).2 = 0
  ∧ (historyData 0 (200, 0) []).subscribed = true
  ∧ (historyData 0 (200, 0) []).terminated = false := by
  refine ⟨rfl, rfl, rfl⟩

/-- Claim C4 (amended): `history_data` subscribes to the history notification
channel unconditionally — the unsynced-record count is never consulted and no
zero-unsynced short-circuit exists; with an empty notification stream the
polling loop never terminates instead of returning an empty History. -/
theorem C4_always_subscribes (T : Int) (stored : Nat × Nat)
    (notifs : List Notif) :
    (historyData T stored notifs).subscribed = true
  ∧ (historyData T stored []).terminated = false
  ∧ (historyData T (stored.1, 0) notifs).subscribed = true :=
  ⟨rfl, rfl, rfl⟩

/-- Claim C5, counterexample.  Writing epoch time 42 to a client whose cached
device time is 0 and then reading the time back returns the stale cache 0,
not 42: the setter never updates `self._device_time` and the getter always
returns the cache. -/
theorem C5_counterexample :
    writeTime { deviceTime := 0, tzOffset := 0, clockChar := [] } 42
      = some { deviceTime := 0, tzOffset := 0, clockChar := [42, 0, 0, 0, 0] }
  ∧ timeGet { deviceTime := 0, tzOffset := 0, clockChar := [42, 0, 0, 0, 0] } = 0
  ∧ (0 : Int) ≠ 42 := by
  refine ⟨by decide, by decide, by decide⟩

/-- Claim C5 (amended): for every epoch value representable in 4 little-endian
bytes and every signed one-byte offset, the 5-byte payload written by the
time setter round-trips through pack and parse to exactly the written epoch
seconds and offset; but a subsequent read does not yield the written value:
the setter leaves the cached device time unchanged and the getter returns
that cache. -/
theorem C5_time_roundtrip (s : ClientState) (ts : Int)
    (h1 : 0 ≤ ts) (h2 : ts < 2 ^ 32)
    (h3 : -128 ≤ s.tzOffset) (h4 : s.tzOffset ≤ 127) :
    writeTime s ts = some { s with clockChar := u32le ts.toNat ++ [sbyte s.tzOffset] }
  ∧ (∀ s', writeTime s ts = some s' →
        parseTimePayload s'.clockChar = some (ts, s.tzOffset)
      ∧ s'.deviceTime = s.deviceTime
      ∧ timeGet s' = s.deviceTime) := by
  have hwrite : writeTime s ts
      = some { s with clockChar := u32le ts.toNat ++ [sbyte s.tzOffset] } := by
    simp only [writeTime, packIb_eq ts s.tzOffset h1 h2 h3 h4]
  refine ⟨hwrite, ?_⟩
  intro s' hs'
  rw [hwrite] at hs'
  injection hs' with hs'
  subst hs'
  exact ⟨parse_pack_roundtrip ts s.tzOffset h1 h2 h3 h4, rfl, rfl⟩

/-- A concrete client state used by the C5 witness. -/
def s5 : ClientState := { deviceTime := 5, tzOffset := 3, clockChar := [] }

/-- Witness for C5: writing epoch 42 with offset 3 stores the packed payload. -/
theorem C5_time_roundtrip_witness :
    writeTime s5 42
      = some { deviceTime := 5, tzOffset := 3,
               clockChar := u32le (Int.toNat 42) ++ [sbyte 3] } :=
  (C5_time_roundtrip s5 42 (by decide) (by decide) (by decide) (by decide)).1

/-- Claim C6, counterexample.  The claim says the setter updates the cached
device time so a subsequent cached read returns the value just written.  With
cache 3 and offset 5, writing epoch 7 leaves the cache at 3: the cached read
returns 3, not 7. -/
theorem C6_counterexample :
    writeTime { deviceTime := 3, tzOffset := 5, clockChar := [] } 7
      = some { deviceTime := 3, tzOffset := 5, clockChar := [7, 0, 0, 0, 5] }
  ∧ timeGet { deviceTime := 3, tzOffset := 5, clockChar := [7, 0, 0, 0, 5] } = 3
  ∧ (3 : Int) ≠ 7 := by
  refine ⟨by decide, by decide, by decide⟩

/-- Claim C6 (amended): the time setter packs the epoch seconds as 4
little-endian bytes followed by the timezone offset as one signed byte and
writes that payload to the clock characteristic, but it does not update the
cached device time: a subsequent cached read returns the value cached before
the write. -/
theorem C6_write_time (s : ClientState) (ts : Int)
    (h1 : 0 ≤ ts) (h2 : ts < 2 ^ 32)
    (h3 : -128 ≤ s.tzOffset) (h4 : s.tzOffset ≤ 127) :
    packIb ts s.tzOffset = some (u32le ts.toNat ++ [sbyte s.tzOffset])
  ∧ writeTime s ts = some { s with clockChar := u32le ts.toNat ++ [sbyte s.tzOffset] }
  ∧ ((writeTime s ts).map ClientState.deviceTime) = some s.deviceTime
  ∧ ((writeTime s ts).map timeGet) = some s.deviceTime := by
  have hpack := packIb_eq ts s.tzOffset h1 h2 h3 h4
  have hwrite : writeTime s ts
      = some { s with clockChar := u32le ts.toNat ++ [sbyte s.tzOffset] } := by
    simp only [writeTime, hpack]
  exact ⟨hpack, hwrite, by rw [hwrite]; rfl, by rw [hwrite]; rfl⟩

/-- Witness for C6: after writing epoch 300 with offset -2 over cache 9, the
cached read still returns 9. -/
theorem C6_write_time_witness :
    ((writeTime { deviceTime := 9, tzOffset := -2, clockChar := [] } 300).map
        timeGet) = some 9 :=
  (C6_write_time { deviceTime := 9, tzOffset := -2, clockChar := [] } 300
    (by decide) (by decide) (by decide) (by decide)).2.2.2

/-- Claim C7, counterexample.  The claim says the battery percentage is
clamped to `[0, 100]` so 1100 mV would give 0%.  The source computes
`min(int(round((voltage - 2.1), 2) * 100), 100)` with no lower clamp: at
1100 mV the result is -100, while the spec's clamped formula gives 0. -/
theorem C7_counterexample :
    processBattery 1100 = -100
  ∧ specBatteryClamped 1100 = 0
  ∧ (-100 : Int) ≠ 0 := by
  refine ⟨?_, ?_, by decide⟩
  · norm_num [processBattery, round2, roundHE, intTrunc]
  · norm_num [specBatteryClamped, roundHE]

/-- Claim C7 (amended): the battery estimate is
`min(int(round(voltage - 2.1, 2) * 100), 100)`: clamped above at 100 but not
below 0.  Voltage 3100 mV gives 100%, 2100 mV gives 0%, 2600 mV gives 50%,
values above 3100 mV clamp to 100%, but values below 2100 mV go negative
(1100 mV gives -100) instead of clamping to 0. -/
theorem C7_battery (rawVoltage : Int) :
    processBattery rawVoltage ≤ 100
  ∧ (processSensorData 0 0 rawVoltage).battery = processBattery rawVoltage
  ∧ processBattery 3100 = 100
  ∧ processBattery 2100 = 0
  ∧ processBattery 2600 = 50
  ∧ processBattery 3500 = 100
  ∧ processBattery 1100 = -100 :=
  ⟨min_le_right _ _, rfl,
   by norm_num [processBattery, round2, roundHE, intTrunc],
   by norm_num [processBattery, round2, roundHE, intTrunc],
   by norm_num [processBattery, round2, roundHE, intTrunc],
   by norm_num [processBattery, round2, roundHE, intTrunc],
   by norm_num [processBattery, round2, roundHE, intTrunc]⟩

/-- Attempt oracle for the spec's retry scenario: attempts 1 through 4 raise,
attempt 5 connects. -/
def fourFailThenOk : Nat → Option Bool :=
  fun i => if i ≤ 4 then none else some true

/-- Claim C8 (confirmed): `connect()` makes at most the configured number of
attempts (default 5), swallowing and counting each raising attempt; when the
first 4 attempts throw and the 5th succeeds it returns successfully, and when
all attempts up to the bound throw it raises `DeviceNotFound`.  In general,
the first non-raising attempt `k ≤ bound` makes `_connect` return at attempt
`k`, and the final retry counter never exceeds `bound + 1`. -/
theorem C8_connect (bound : Nat) (outcome : Nat → Option Bool)
    (hall : ∀ i, outcome i = none) :
    connectFn 5 fourFailThenOk = (true, 5, true)
  ∧ connectRaisesDeviceNotFound 5 fourFailThenOk = false
  ∧ connectFn bound outcome = (false, bound + 1, false)
  ∧ connectRaisesDeviceNotFound bound outcome = true
  ∧ (∀ (b : Nat) (o : Nat → Option Bool), (connectFn b o).2.1 ≤ b + 1)
  ∧ (∀ (b k : Nat) (o : Nat → Option Bool) (res : Bool), 1 ≤ k → k ≤ b →
        (∀ i, i < k → o i = none) → o k = some res →
        connectFn b o = (true, k, res)) := by
  have hexhaust : connectFn bound outcome = (false, bound + 1, false) := by
    have := connectLoop_all_raise outcome hall bound 1
    rw [connectFn, this]
    have h : 1 + bound = bound + 1 := by omega
    rw [h]
  refine ⟨by decide, by decide, hexhaust, ?_, ?_, ?_⟩
  · simp [connectRaisesDeviceNotFound, hexhaust]
  · intro b o
    have := connectLoop_retry_le o b 1
    rw [connectFn]
    omega
  · intro b k o res h1 h2 hnone hk
    exact connectLoop_first_success o b 1 k res h1 (by omega)
      (fun i _ hik => hnone i hik) hk

/-- Witness for C8: when every attempt raises, `connect()` with the default
bound of 5 raises `DeviceNotFound`. -/
theorem C8_connect_witness :
    connectRaisesDeviceNotFound 5 (fun _ => none) = true :=
  (C8_connect 5 (fun _ => none) (fun _ => rfl)).2.2.2.1

/-- A pair of concrete records with the same timestamp key, used for C9. -/
def recA : HistoryRecord :=
  { time := 1, temp_min := 1, temp_max := 2, hum_min := 10, hum_max := 20 }

/-- The overwriting record for the C9 witness. -/
def recB : HistoryRecord :=
  { time := 1, temp_min := 3, temp_max := 4, hum_min := 30, hum_max := 40 }

/-- Claim C9 (confirmed): inserting a record whose timestamp key already
exists overwrites the earlier record in place rather than adding an entry
(the size is unchanged and lookup returns the new record), and after any
sequence of insertions into an initially empty History its size is at most
the number of distinct timestamps inserted. -/
theorem C9_history_overwrite (h : History) (k : Int) (v : HistoryRecord)
    (inserts : List (Int × HistoryRecord)) (hk : k ∈ h.keys) :
    (h.add k v).length = h.length
  ∧ (h.add k v).lookup k = some v
  ∧ (insertAll [] inserts).length ≤ (inserts.map Prod.fst).dedup.length := by
  refine ⟨?_, History.lookup_add_self h k v, insertAll_length_le inserts⟩
  rw [History.length_add, if_pos hk]

/-- Witness for C9: overwriting key 1 in a one-entry history keeps its length
1 and returns the new record. -/
theorem C9_history_overwrite_witness :
    (History.add [(1, recA)] 1 recB).length = ([(1, recA)] : History).length
  ∧ (History.add [(1, recA)] 1 recB).lookup 1 = some recB
  ∧ (insertAll [] [(1, recA), (1, recB)]).length
      ≤ ([(1, recA), (1, recB)].map Prod.fst).dedup.length :=
  C9_history_overwrite [(1, recA)] 1 recB [(1, recA), (1, recB)] (by decide)

/-- Claim C10 (confirmed): the retry counter is incremented only when an
attempt raises; an attempt that completes without raising makes `_connect`
return `True` immediately (even when the underlying connect call yielded
`False`, leaving the client unconnected), so under repeated non-raising
failed attempts the loop terminates at the first attempt with the retry
counter still 1 — never by exhausting the configured bound — and no
`DeviceNotFound` is raised. -/
theorem C10_retry_counting (bound : Nat) (outcome : Nat → Option Bool)
    (hb : 1 ≤ bound) (hfail : ∀ i, outcome i = some false) :
    connectFn bound outcome = (true, 1, false)
  ∧ connectRaisesDeviceNotFound bound outcome = false
  ∧ (∀ (o : Nat → Option Bool) (fuel retry : Nat) (b : Bool),
        o retry = some b →
        connectLoop o (fuel + 1) retry = (true, retry, b)) := by
  obtain ⟨f, rfl⟩ : ∃ f, bound = f + 1 := ⟨bound - 1, by omega⟩
  have h1 : connectFn (f + 1) outcome = (true, 1, false) :=
    connectLoop_immediate outcome f 1 false (hfail 1)
  exact ⟨h1, by simp [connectRaisesDeviceNotFound, h1],
    fun o fuel retry b hk => connectLoop_immediate o fuel retry b hk⟩

/-- Witness for C10: with every attempt returning an unconnected result
without raising, `_connect` returns at the first attempt with retry 1. -/
theorem C10_retry_counting_witness :
    connectFn 5 (fun _ => some false) = (true, 1, false) :=
  (C10_retry_counting 5 (fun _ => some false) (by decide) (fun _ => rfl)).1

end Lywsd03
